import Mathlib

/-!
Shallow embedding of the WebGPU "Game of Life" demo (`src/unnamed/part_000`,
the simulated variant) and of the static variant (`src/run.js`).

Conventions of the embedding:
* WGSL `u32` values are `Nat`s; arithmetic that can wrap is reduced modulo
  `2^32` explicitly (`U32`, `u32add`, `u32sub`).  Chained wrapping additions
  `((a + b) % 2^32 + c) % 2^32 = (a + b + c) % 2^32`, so a single final
  reduction models a chain of u32 `+`.
* The `grid` uniform is a pair of `f32`s in the shaders, but it only ever
  holds the small integers 32/64 (and 5 in the 5x5 scenario), which `f32`
  represents exactly, and `u32(grid.x)` recovers them exactly; we model it
  as a pair of `Nat`s.
* Storage buffers (`array<u32>`) are `List Nat`, indexed with `List.getD`.
* `f32` quantities in the vertex/fragment shader are modelled as `ℚ`.  The
  statements proved about them (scaling by the integer states 0 and 1,
  syntactic equality of the two shader variants) are exact identities that
  the corresponding `f32` computations also satisfy: `x * 0 = 0` and
  `x * 1 = x` hold exactly in IEEE `f32` for the finite inputs involved,
  and `f32(i) % grid.x` / `floor(f32(i) / grid.x)` are exact for
  `i < W*H ≤ 2^24` with `W` a power of two.
-/

namespace WebGPULife

/-- The u32 modulus: WGSL `u32` arithmetic wraps modulo `2^32`. -/
def U32 : Nat := 4294967296

/-- u32 addition (wraps modulo `2^32`). -/
def u32add (a b : Nat) : Nat := (a + b) % U32

/-- u32 subtraction (wraps modulo `2^32`); for `a b < 2^32` this is the
value of WGSL `a - b` on `u32`. -/
def u32sub (a b : Nat) : Nat := (a + U32 - b % U32) % U32

/-- The `grid` uniform: `vec2f grid = (GRID_SIZE, GRID_SIZE)`; width is
`grid.x`, height is `grid.y`. -/
structure Grid where
  w : Nat
  h : Nat

/-- The simulated variant's configuration: `const GRID_SIZE = 64;`,
`uniformArray = Float32Array([GRID_SIZE, GRID_SIZE])`. -/
def grid64 : Grid := ⟨64, 64⟩

/-- The 5x5 grid of the glider scenario. -/
def grid5 : Grid := ⟨5, 5⟩

/-- Source (compute shader):
`fn cellIndex(cell: vec2u) -> u32 \x7b return (cell.y % u32(grid.y)) * u32(grid.x) + (cell.x % u32(grid.x)); \x7d`
All operations are u32, so the result is reduced modulo `2^32`. -/
def cellIndex (g : Grid) (x y : Nat) : Nat :=
  ((y % g.h) * g.w + (x % g.w)) % U32

/-- Source (compute shader):
`fn cellActive(x: u32, y: u32) -> u32 \x7b return cellStateIn[cellIndex(vec2(x, y))]; \x7d`
The storage buffer read is modelled with `List.getD _ _ 0`; every index the
program actually produces is in bounds. -/
def cellActive (g : Grid) (buf : List Nat) (x y : Nat) : Nat :=
  buf.getD (cellIndex g x y) 0

/-- Source (compute shader, `computeMain`, the eight `cellActive` calls):
the neighbor sum over `(cell.x±1, cell.y±1)` in u32 arithmetic, in the
source's order.  The chain of u32 `+` is one final reduction mod `2^32`. -/
def activeNeighbors (g : Grid) (buf : List Nat) (x y : Nat) : Nat :=
  (cellActive g buf (u32add x 1) (u32add y 1) +
   cellActive g buf (u32add x 1) y +
   cellActive g buf (u32add x 1) (u32sub y 1) +
   cellActive g buf x (u32sub y 1) +
   cellActive g buf (u32sub x 1) (u32sub y 1) +
   cellActive g buf (u32sub x 1) y +
   cellActive g buf (u32sub x 1) (u32add y 1) +
   cellActive g buf x (u32add y 1)) % U32

/-- Source (compute shader, `computeMain`, the `switch`):
`case 2:` copy `cellStateIn[i]`, `case 3:` write `1`, `default:` write `0`.
This is the value written to `cellStateOut[cellIndex(cell.xy)]` by the
invocation with global id `(x, y)`. -/
def nextState (g : Grid) (buf : List Nat) (x y : Nat) : Nat :=
  let s := activeNeighbors g buf x y
  if s = 2 then buf.getD (cellIndex g x y) 0
  else if s = 3 then 1
  else 0

/-- One full simulation dispatch: every global id `(x, y)` with `x < w`,
`y < h` runs `computeMain`, writing `cellStateOut[cellIndex(x, y)]`.
For in-range ids `cellIndex g x y = y * w + x` (see
`cellIndex_eq_linear`), each slot is written exactly once, so the output
buffer at slot `i` holds `nextState` of the cell `(i % w, i / w)`. -/
def stepGrid (g : Grid) (buf : List Nat) : List Nat :=
  (List.range (g.w * g.h)).map fun i => nextState g buf (i % g.w) (i / g.w)

/-- For an in-range cell, `cellIndex` is the plain linear index
`y * w + x` (no u32 wrap occurs: the value is below `2^32`). -/
theorem cellIndex_eq_linear (g : Grid) (x y : Nat) (hx : x < g.w)
    (hy : y < g.h) (hsz : g.w * g.h ≤ U32) :
    cellIndex g x y = y * g.w + x := by
  unfold cellIndex U32 at *
  have hxw : x % g.w = x := Nat.mod_eq_of_lt hx
  have hyh : y % g.h = y := Nat.mod_eq_of_lt hy
  rw [hxw, hyh]
  apply Nat.mod_eq_of_lt
  have h1 : y * g.w + x < (y + 1) * g.w := by
    rw [Nat.succ_mul]; omega
  have h2 : (y + 1) * g.w ≤ g.h * g.w := Nat.mul_le_mul_right _ hy
  have h3 : g.h * g.w = g.w * g.h := Nat.mul_comm _ _
  omega

/-- Reading slot `i < n` of `(List.range n).map f` gives `f i`. -/
theorem getD_map_range (f : Nat → Nat) (n i : Nat) (h : i < n) :
    ((List.range n).map f).getD i 0 = f i := by
  rw [List.getD_eq_getElem?_getD, List.getElem?_map, List.getElem?_range h]
  rfl

/-- The output slot of an in-range cell holds exactly the rule applied to
that cell. -/
theorem stepGrid_getD (g : Grid) (buf : List Nat) (x y : Nat)
    (hx : x < g.w) (hy : y < g.h) :
    (stepGrid g buf).getD (y * g.w + x) 0 = nextState g buf x y := by
  have hw : 0 < g.w := Nat.lt_of_le_of_lt (Nat.zero_le x) hx
  have h1 : y * g.w + x < (y + 1) * g.w := by
    rw [Nat.succ_mul]; omega
  have h2 : (y + 1) * g.w ≤ g.h * g.w := Nat.mul_le_mul_right _ hy
  have h3 : g.h * g.w = g.w * g.h := Nat.mul_comm _ _
  have hi : y * g.w + x < g.w * g.h := by omega
  rw [stepGrid, getD_map_range _ _ _ hi]
  have hmod : (y * g.w + x) % g.w = x := by
    rw [Nat.mul_comm y g.w, Nat.mul_add_mod, Nat.mod_eq_of_lt hx]
  have hdiv : (y * g.w + x) / g.w = y := by
    rw [Nat.mul_comm y g.w, Nat.mul_add_div hw, Nat.div_eq_of_lt hx,
      Nat.add_zero]
  rw [hmod, hdiv]

/-- C1: for every cell `(x, y)` of the grid and every content of the input
buffer, the simulation step writes at linear index `i = y*W + x`: the
cell's current value when the neighbor sum is 2 (a copy, not a forced 1),
the value 1 when the sum is 3, and 0 for every other sum (in particular
for each of 0, 1, 4, 5, 6, 7, 8). -/
theorem step_rule_correct (g : Grid) (buf : List Nat) (x y : Nat)
    (hx : x < g.w) (hy : y < g.h) :
    (stepGrid g buf).getD (y * g.w + x) 0 =
      (if activeNeighbors g buf x y = 2 then buf.getD (cellIndex g x y) 0
       else if activeNeighbors g buf x y = 3 then 1 else 0) ∧
    (activeNeighbors g buf x y = 2 →
      (stepGrid g buf).getD (y * g.w + x) 0 = buf.getD (cellIndex g x y) 0) ∧
    (activeNeighbors g buf x y = 3 →
      (stepGrid g buf).getD (y * g.w + x) 0 = 1) ∧
    (activeNeighbors g buf x y ≠ 2 → activeNeighbors g buf x y ≠ 3 →
      (stepGrid g buf).getD (y * g.w + x) 0 = 0) := by
  rw [stepGrid_getD g buf x y hx hy]
  unfold nextState
  refine ⟨rfl, ?_, ?_, ?_⟩
  · intro h2; simp [h2]
  · intro h3
    by_cases h2 : activeNeighbors g buf x y = 2
    · omega
    · simp [h2, h3]
  · intro h2 h3; simp [h2, h3]

/-- Witness for C1 at the concrete input `g = grid64`, `buf = []`,
`(x, y) = (0, 0)`. -/
theorem step_rule_correct_witness :
    ((0 : Nat) < grid64.w ∧ (0 : Nat) < grid64.h) ∧
    ((stepGrid grid64 []).getD (0 * grid64.w + 0) 0 =
      (if activeNeighbors grid64 [] 0 0 = 2 then
        List.getD [] (cellIndex grid64 0 0) 0
       else if activeNeighbors grid64 [] 0 0 = 3 then 1 else 0) ∧
    (activeNeighbors grid64 [] 0 0 = 2 →
      (stepGrid grid64 []).getD (0 * grid64.w + 0) 0 =
        List.getD [] (cellIndex grid64 0 0) 0) ∧
    (activeNeighbors grid64 [] 0 0 = 3 →
      (stepGrid grid64 []).getD (0 * grid64.w + 0) 0 = 1) ∧
    (activeNeighbors grid64 [] 0 0 ≠ 2 → activeNeighbors grid64 [] 0 0 ≠ 3 →
      (stepGrid grid64 []).getD (0 * grid64.w + 0) 0 = 0)) :=
  ⟨⟨by decide, by decide⟩,
   step_rule_correct grid64 [] 0 0 (by decide) (by decide)⟩

/-- Spec-described toroidal wrap of one coordinate: `i + d` reduced by true
mathematical modulo into `[0, n)` (`Int.emod`, then back to `Nat`). -/
def wrapCoord (n i : Nat) (d : Int) : Nat := (((i : Int) + d) % (n : Int)).toNat

/-- The 8 Moore-neighborhood offsets `(dx, dy)` — diagonals included, the
`(0, 0)` offset (the cell itself) excluded.  Listed in the order of the
eight `cellActive` calls of `computeMain`. -/
def mooreOffsets : List (Int × Int) :=
  [(1, 1), (1, 0), (1, -1), (0, -1), (-1, -1), (-1, 0), (-1, 1), (0, 1)]

/-- Spec-described neighbor sum: the sum of the current-buffer states of
the 8 toroidally wrapped Moore neighbors of `(x, y)`. -/
def mooreNeighborSum (g : Grid) (buf : List Nat) (x y : Nat) : Nat :=
  (mooreOffsets.map fun d =>
    buf.getD (wrapCoord g.h y d.2 * g.w + wrapCoord g.w x d.1) 0).sum

/-- Entries of a buffer of boolean (0/1) states read back as at most 1. -/
theorem getD_le_one (buf : List Nat) (hb : ∀ v ∈ buf, v ≤ 1) (i : Nat) :
    buf.getD i 0 ≤ 1 := by
  by_cases h : i < buf.length
  · rw [List.getD_eq_getElem buf 0 h]
    exact hb _ (List.getElem_mem h)
  · rw [List.getD_eq_default buf 0 (by omega)]
    decide

theorem u32add_one_mod64 (x : Nat) :
    u32add x 1 % 64 = wrapCoord 64 x 1 := by
  unfold u32add U32 wrapCoord; omega

theorem u32sub_one_mod64 (x : Nat) (hx : x < 64) :
    u32sub x 1 % 64 = wrapCoord 64 x (-1) := by
  unfold u32sub U32 wrapCoord; omega

theorem wrapCoord_zero64 (x : Nat) : wrapCoord 64 x 0 = x % 64 := by
  unfold wrapCoord; omega

/-- A chain of eight u32 additions of boolean buffer reads never wraps. -/
theorem sum8_mod (buf : List Nat) (hb : ∀ v ∈ buf, v ≤ 1)
    (i1 i2 i3 i4 i5 i6 i7 i8 : Nat) :
    (buf.getD i1 0 + buf.getD i2 0 + buf.getD i3 0 + buf.getD i4 0 +
     buf.getD i5 0 + buf.getD i6 0 + buf.getD i7 0 + buf.getD i8 0) % U32 =
    buf.getD i1 0 + buf.getD i2 0 + buf.getD i3 0 + buf.getD i4 0 +
     buf.getD i5 0 + buf.getD i6 0 + buf.getD i7 0 + buf.getD i8 0 := by
  have h1 := getD_le_one buf hb i1
  have h2 := getD_le_one buf hb i2
  have h3 := getD_le_one buf hb i3
  have h4 := getD_le_one buf hb i4
  have h5 := getD_le_one buf hb i5
  have h6 := getD_le_one buf hb i6
  have h7 := getD_le_one buf hb i7
  have h8 := getD_le_one buf hb i8
  unfold U32
  omega

/-- On the 64x64 grid `cellIndex` is row-mod times width plus column-mod;
the final u32 reduction never fires (the value is below `2^32`). -/
theorem cellIndex64 (a b : Nat) :
    cellIndex grid64 a b = (b % 64) * 64 + (a % 64) := by
  show ((b % 64) * 64 + (a % 64)) % U32 = _
  unfold U32; omega

theorem grid64_w : grid64.w = 64 := rfl

theorem grid64_h : grid64.h = 64 := rfl

/-- C2: for every cell `(x, y)` of the 64x64 grid and every boolean-valued
input buffer, the neighbor sum computed by `computeMain` (u32 arithmetic,
`cellIndex` wrap) equals the sum of the current-buffer states of exactly
the 8 toroidally wrapped Moore neighbors; none of the 8 wrapped neighbor
indices is the cell's own index, so the cell's own state is never
counted. -/
theorem neighbor_sum_correct (buf : List Nat) (x y : Nat)
    (hx : x < grid64.w) (hy : y < grid64.h) (hb : ∀ v ∈ buf, v ≤ 1) :
    activeNeighbors grid64 buf x y = mooreNeighborSum grid64 buf x y ∧
    (∀ d ∈ mooreOffsets,
      wrapCoord grid64.h y d.2 * grid64.w + wrapCoord grid64.w x d.1 ≠
        y * grid64.w + x) := by
  rw [grid64_w] at hx
  rw [grid64_h] at hy
  constructor
  · unfold activeNeighbors cellActive
    rw [sum8_mod buf hb]
    unfold mooreNeighborSum mooreOffsets
    simp only [List.map_cons, List.map_nil, List.sum_cons, List.sum_nil,
      grid64_w, grid64_h, cellIndex64, u32add_one_mod64,
      u32sub_one_mod64 _ hx, u32sub_one_mod64 _ hy, wrapCoord_zero64]
    omega
  · intro d hd
    simp only [mooreOffsets, List.mem_cons, List.not_mem_nil, or_false] at hd
    rw [grid64_w, grid64_h]
    rcases hd with rfl | rfl | rfl | rfl | rfl | rfl | rfl | rfl <;>
      (unfold wrapCoord; omega)

/-- Witness for C2 at `buf = []`, `(x, y) = (0, 0)`. -/
theorem neighbor_sum_correct_witness :
    ((0 : Nat) < grid64.w ∧ (0 : Nat) < grid64.h ∧
      ∀ v ∈ ([] : List Nat), v ≤ 1) ∧
    (activeNeighbors grid64 [] 0 0 = mooreNeighborSum grid64 [] 0 0 ∧
    (∀ d ∈ mooreOffsets,
      wrapCoord grid64.h 0 d.2 * grid64.w + wrapCoord grid64.w 0 d.1 ≠
        0 * grid64.w + 0)) :=
  ⟨⟨by decide, by decide, by simp⟩,
   neighbor_sum_correct [] 0 0 (by decide) (by decide) (by simp)⟩

/-- C4: on the 64x64 grid, the index wrap of `cellIndex` behaves as true
mathematical modulo.  The out-of-range column `-1` — which reaches
`cellIndex` as the u32 underflow value `2^32 - 1` (`u32sub 0 1`, exactly
what `cell.x - 1` produces at `x = 0` in `computeMain`) — has the same
wrapped index as column `W - 1`, and column `W` the same as column `0`;
analogously for rows.  The last conjunct states the general modulo law:
feeding the u32 representation of any integer coordinate pair to
`cellIndex` yields the true-modulo linear index (this holds because the
grid side 64 divides `2^32`). -/
theorem wrap_correct (x y : Nat) (_hx : x < grid64.w) (_hy : y < grid64.h) :
    cellIndex grid64 (u32sub 0 1) y = cellIndex grid64 (64 - 1) y ∧
    cellIndex grid64 64 y = cellIndex grid64 0 y ∧
    cellIndex grid64 x (u32sub 0 1) = cellIndex grid64 x (64 - 1) ∧
    cellIndex grid64 x 64 = cellIndex grid64 x 0 ∧
    (∀ cx cy : Int,
      cellIndex grid64 ((cx % (U32 : Int)).toNat) ((cy % (U32 : Int)).toNat) =
        (cy % 64).toNat * 64 + (cx % 64).toNat) := by
  refine ⟨?_, ?_, ?_, ?_, ?_⟩
  · rw [cellIndex64, cellIndex64]
    unfold u32sub U32
    omega
  · rw [cellIndex64, cellIndex64]
  · rw [cellIndex64, cellIndex64]
    unfold u32sub U32
    omega
  · rw [cellIndex64, cellIndex64]
  · intro cx cy
    rw [cellIndex64]
    unfold U32
    omega

/-- Witness for C4 at `(x, y) = (0, 0)`. -/
theorem wrap_correct_witness :
    ((0 : Nat) < grid64.w ∧ (0 : Nat) < grid64.h) ∧
    (cellIndex grid64 (u32sub 0 1) 0 = cellIndex grid64 (64 - 1) 0 ∧
    cellIndex grid64 64 0 = cellIndex grid64 0 0 ∧
    cellIndex grid64 0 (u32sub 0 1) = cellIndex grid64 0 (64 - 1) ∧
    cellIndex grid64 0 64 = cellIndex grid64 0 0 ∧
    (∀ cx cy : Int,
      cellIndex grid64 ((cx % (U32 : Int)).toNat) ((cy % (U32 : Int)).toNat) =
        (cy % 64).toNat * 64 + (cx % 64).toNat)) :=
  ⟨⟨by decide, by decide⟩, wrap_correct 0 0 (by decide) (by decide)⟩

/-- Source (vertex shader `vertexMain`):
`let i = f32(input.instance); let cell = vec2f(i % grid.x, floor(i / grid.x));`
For `i < W*H ≤ 2^24` with `W` a power of two, `f32(i)`, the `%` and the
`floor`-division are exact, so the decode is `(i % W, i / W)` on `Nat`. -/
def decodeCell (g : Grid) (i : Nat) : Nat × Nat := (i % g.w, i / g.w)

/-- C6: on the 64x64 grid the render stage's decode `(i % W, i / W)` and
the simulation stage's encode `cellIndex` (which is `y*W + x` in range)
are mutually inverse: decoding the encoded index of any in-range `(x, y)`
gives `(x, y)` back, and encoding the decoded coordinates of any
`i < W*H` gives `i` back. -/
theorem index_bijection (x y i : Nat) (hx : x < grid64.w) (hy : y < grid64.h)
    (hi : i < grid64.w * grid64.h) :
    decodeCell grid64 (cellIndex grid64 x y) = (x, y) ∧
    cellIndex grid64 (decodeCell grid64 i).1 (decodeCell grid64 i).2 = i := by
  rw [grid64_w] at hx
  rw [grid64_h] at hy
  have hi' : i < 64 * 64 := hi
  constructor
  · show (_, _) = (x, y)
    rw [cellIndex64]
    simp only [grid64_w, Prod.mk.injEq]
    constructor <;> omega
  · show cellIndex grid64 (i % grid64.w) (i / grid64.w) = i
    rw [cellIndex64]
    simp only [grid64_w]
    omega

/-- Witness for C6 at `(x, y) = (0, 0)`, `i = 0`. -/
theorem index_bijection_witness :
    ((0 : Nat) < grid64.w ∧ (0 : Nat) < grid64.h ∧
      (0 : Nat) < grid64.w * grid64.h) ∧
    (decodeCell grid64 (cellIndex grid64 0 0) = (0, 0) ∧
    cellIndex grid64 (decodeCell grid64 0).1 (decodeCell grid64 0).2 = 0) :=
  ⟨⟨by decide, by decide, by decide⟩,
   index_bijection 0 0 0 (by decide) (by decide) (by decide)⟩

/-- Source (`bindGroups`, lines 237-267).  We refer to the two GPU cell
state buffers by their index in `cellStateStorage`: `0` is "Cell State A",
`1` is "Cell State B".  Each bind group is the pair
(buffer at binding 1 = `cellStateIn`, buffer at binding 2 =
`cellStateOut`): group A is `(storage[0], storage[1])`, group B is
`(storage[1], storage[0])`. -/
def bindGroups : List (Nat × Nat) := [(0, 1), (1, 0)]

/-- The (input, output) storage-buffer pair selected by
`setBindGroup(0, bindGroups[k])`. -/
def simBindings (k : Nat) : Nat × Nat := bindGroups.getD k (0, 1)

/-- Effect of one tick's compute pass on the contents of the two storage
buffers (`store j` models the content of `cellStateStorage[j]`): with bind
group `bindGroups[step % 2]`, the dispatch writes `stepGrid` of the input
buffer's content into the output buffer; the input buffer is untouched
(binding 1 is `read-only-storage`). -/
def tickSim (g : Grid) (step : Nat) (store : Nat → List Nat) :
    Nat → List Nat :=
  let bg := simBindings (step % 2)
  fun j => if j = bg.2 then stepGrid g (store bg.1) else store j

/-- C3: for every step counter value, the simulation's input buffer is
`buffers[step % 2]` and its output buffer is `buffers[(step + 1) % 2]`
(buffer A = index 0 when the selector is 0, buffer B = index 1 when it is
1); the two are always distinct; the tick leaves the input buffer
untouched and the content it writes to the output buffer is a function of
the input buffer's pre-tick content alone — so no value written to the
output buffer during tick N is ever read by tick N's own dispatch. -/
theorem ping_pong_selection (g : Grid) (step : Nat)
    (store store₂ : Nat → List Nat)
    (h : store (simBindings (step % 2)).1 = store₂ (simBindings (step % 2)).1) :
    (simBindings (step % 2)).1 = step % 2 ∧
    (simBindings (step % 2)).2 = (step + 1) % 2 ∧
    (simBindings (step % 2)).1 ≠ (simBindings (step % 2)).2 ∧
    tickSim g step store (simBindings (step % 2)).2 =
      stepGrid g (store (simBindings (step % 2)).1) ∧
    tickSim g step store (simBindings (step % 2)).1 =
      store (simBindings (step % 2)).1 ∧
    tickSim g step store (simBindings (step % 2)).2 =
      tickSim g step store₂ (simBindings (step % 2)).2 := by
  rcases Nat.mod_two_eq_zero_or_one step with h0 | h0
  · have hs : simBindings (step % 2) = (0, 1) := by rw [h0]; rfl
    rw [hs] at h ⊢
    refine ⟨by rw [h0], by omega, by decide, ?_, ?_, ?_⟩
    · show tickSim g step store 1 = _
      unfold tickSim
      rw [hs]
      simp
    · show tickSim g step store 0 = _
      unfold tickSim
      rw [hs]
      simp
    · show tickSim g step store 1 = tickSim g step store₂ 1
      unfold tickSim
      rw [hs]
      simp at h ⊢
      rw [h]
  · have hs : simBindings (step % 2) = (1, 0) := by rw [h0]; rfl
    rw [hs] at h ⊢
    refine ⟨by rw [h0], by omega, by decide, ?_, ?_, ?_⟩
    · show tickSim g step store 0 = _
      unfold tickSim
      rw [hs]
      simp
    · show tickSim g step store 1 = _
      unfold tickSim
      rw [hs]
      simp
    · show tickSim g step store 0 = tickSim g step store₂ 0
      unfold tickSim
      rw [hs]
      simp at h ⊢
      rw [h]

/-- Witness for C3 at `g = grid64`, `step = 0` and the empty store. -/
theorem ping_pong_selection_witness :
    ((fun _ : Nat => ([] : List Nat)) (simBindings (0 % 2)).1 =
      (fun _ : Nat => ([] : List Nat)) (simBindings (0 % 2)).1) ∧
    ((simBindings (0 % 2)).1 = 0 % 2 ∧
    (simBindings (0 % 2)).2 = (0 + 1) % 2 ∧
    (simBindings (0 % 2)).1 ≠ (simBindings (0 % 2)).2 ∧
    tickSim grid64 0 (fun _ => []) (simBindings (0 % 2)).2 =
      stepGrid grid64 ((fun _ : Nat => ([] : List Nat)) (simBindings (0 % 2)).1) ∧
    tickSim grid64 0 (fun _ => []) (simBindings (0 % 2)).1 =
      (fun _ : Nat => ([] : List Nat)) (simBindings (0 % 2)).1 ∧
    tickSim grid64 0 (fun _ => []) (simBindings (0 % 2)).2 =
      tickSim grid64 0 (fun _ => []) (simBindings (0 % 2)).2) :=
  ⟨rfl, ping_pong_selection grid64 0 (fun _ => []) (fun _ => []) rfl⟩

/-- The frame driver's mutable state: the step counter (`let step = 0`)
and the contents of the two cell state storage buffers. -/
structure FrameState where
  step : Nat
  store : Nat → List Nat

/-- Source `render()` (lines 302-346): encode the compute pass with
`bindGroups[step % 2]` and dispatch it over the grid; `step++`; encode the
render pass with `bindGroups[step % 2]` (the incremented step), whose
binding 1 — `cell_state`, the buffer the vertex shader reads — is the
first component of that bind group.  Returns the post-tick state paired
with the index of the storage buffer the render pass reads. -/
def render (g : Grid) (s : FrameState) : FrameState × Nat :=
  let store' := tickSim g s.step s.store
  let step' := s.step + 1
  (⟨step', store'⟩, (simBindings (step' % 2)).1)

/-- C5: on every tick, the simulation dispatch reads `buffers[step % 2]`
and writes `buffers[(step + 1) % 2]`; the step counter then grows by
exactly 1; the render draw reads `buffers[step % 2]` for the incremented
step — which is exactly the buffer the same tick's simulation just wrote,
and its content at that point is the simulation output computed from
`buffers[step % 2]`'s pre-tick content. -/
theorem frame_driver_correct (g : Grid) (s : FrameState) :
    (render g s).1.step = s.step + 1 ∧
    (simBindings (s.step % 2)).1 = s.step % 2 ∧
    (simBindings (s.step % 2)).2 = (s.step + 1) % 2 ∧
    (render g s).2 = (s.step + 1) % 2 ∧
    (render g s).2 = (simBindings (s.step % 2)).2 ∧
    (render g s).1.store (render g s).2 =
      stepGrid g (s.store (s.step % 2)) := by
  rcases Nat.mod_two_eq_zero_or_one s.step with h0 | h0
  · have h1 : (s.step + 1) % 2 = 1 := by omega
    have hs : simBindings (s.step % 2) = (0, 1) := by rw [h0]; rfl
    refine ⟨rfl, by rw [hs, h0], by rw [hs, h1], ?_, ?_, ?_⟩
    · show (simBindings ((s.step + 1) % 2)).1 = (s.step + 1) % 2
      rw [h1]; rfl
    · show (simBindings ((s.step + 1) % 2)).1 = _
      rw [h1, hs]
      rfl
    · show tickSim g s.step s.store (simBindings ((s.step + 1) % 2)).1 = _
      rw [h1]
      unfold tickSim
      rw [hs, h0]
      simp [simBindings, bindGroups]
  · have h1 : (s.step + 1) % 2 = 0 := by omega
    have hs : simBindings (s.step % 2) = (1, 0) := by rw [h0]; rfl
    refine ⟨rfl, by rw [hs, h0], by rw [hs, h1], ?_, ?_, ?_⟩
    · show (simBindings ((s.step + 1) % 2)).1 = (s.step + 1) % 2
      rw [h1]; rfl
    · show (simBindings ((s.step + 1) % 2)).1 = _
      rw [h1, hs]
      rfl
    · show tickSim g s.step s.store (simBindings ((s.step + 1) % 2)).1 = _
      rw [h1]
      unfold tickSim
      rw [hs, h0]
      simp [simBindings, bindGroups]

/-- The classic 5-cell glider, seeded at the known offset `(1, 1)` of the
5x5 grid: live cells `(2,1), (3,2), (1,3), (2,3), (3,3)` (x, y). -/
def gliderCells : List (Nat × Nat) := [(2, 1), (3, 2), (1, 3), (2, 3), (3, 3)]

/-- Translate a live-cell set by `(dx, dy)` modulo the 5x5 grid size. -/
def translateCells (d : Nat × Nat) (cs : List (Nat × Nat)) :
    List (Nat × Nat) :=
  cs.map fun c => ((c.1 + d.1) % 5, (c.2 + d.2) % 5)

/-- Row-major 5x5 state buffer holding 1 exactly at the given live cells. -/
def cellsToBuf (cs : List (Nat × Nat)) : List Nat :=
  (List.range 25).map fun i => if (i % 5, i / 5) ∈ cs then 1 else 0

/-- C7: seeding the 5x5 toroidal grid with the classic 5-cell glider at
offset `(1, 1)` and running the simulation step four times yields exactly
the same glider translated by `(1, 1)` modulo the grid size. -/
theorem glider_translates :
    stepGrid grid5 (stepGrid grid5 (stepGrid grid5 (stepGrid grid5
      (cellsToBuf gliderCells)))) =
    cellsToBuf (translateCells (1, 1) gliderCells) := by
  decide

/-- The shared quad geometry, `const vertices = Float32Array([...])`
(identical in both files): six `(x, y)` pairs forming two triangles that
split the `[-0.8, 0.8]` square diagonally. -/
def vertices : List (ℚ × ℚ) :=
  [(-4/5, -4/5), (4/5, -4/5), (4/5, 4/5),
   (-4/5, -4/5), (4/5, 4/5), (-4/5, 4/5)]

namespace SimShader

/-- Source (`part_000` cell shader `vertexMain`):
`cell = vec2f(i % grid.x, floor(i / grid.x))`;
`cell_offset = cell / grid * 2`; `curr_state = f32(cell_state[instance])`;
`grid_pos = ((input.pos * curr_state + 1) / grid) - 1 + cell_offset`.
Returns (the x/y of `output.pos`, `output.cell`); the remaining two
components of `output.pos` are the constants 0 and 1.  `state` is the u32
read `cell_state[input.instance]`. -/
def vertexMain (g : Grid) (inst : Nat) (pos : ℚ × ℚ) (state : Nat) :
    (ℚ × ℚ) × (ℚ × ℚ) :=
  let cell : ℚ × ℚ := ((inst % g.w : Nat), (inst / g.w : Nat))
  let cellOffset : ℚ × ℚ := (cell.1 / g.w * 2, cell.2 / g.h * 2)
  (((pos.1 * state + 1) / g.w - 1 + cellOffset.1,
    (pos.2 * state + 1) / g.h - 1 + cellOffset.2),
   cell)

/-- Source (`part_000` cell shader `fragmentMain`):
`c = input.cell / grid; return vec4f(c.xy, 1-c.x, 1)`. -/
def fragmentMain (g : Grid) (cell : ℚ × ℚ) : ℚ × ℚ × ℚ × ℚ :=
  let c : ℚ × ℚ := (cell.1 / g.w, cell.2 / g.h)
  (c.1, c.2, 1 - c.1, 1)

end SimShader

namespace StaticShader

/-- Source (`run.js` cell shader `vertexMain`): identical to the simulated
variant's, except there is no `cell_state` binding and no scaling —
`grid_pos = ((input.pos + 1) / grid) - 1 + cell_offset`. -/
def vertexMain (g : Grid) (inst : Nat) (pos : ℚ × ℚ) :
    (ℚ × ℚ) × (ℚ × ℚ) :=
  let cell : ℚ × ℚ := ((inst % g.w : Nat), (inst / g.w : Nat))
  let cellOffset : ℚ × ℚ := (cell.1 / g.w * 2, cell.2 / g.h * 2)
  (((pos.1 + 1) / g.w - 1 + cellOffset.1,
    (pos.2 + 1) / g.h - 1 + cellOffset.2),
   cell)

/-- Source (`run.js` cell shader `fragmentMain`):
`c = input.cell / grid; return vec4f(c.xy, 1-c.x, 1)`. -/
def fragmentMain (g : Grid) (cell : ℚ × ℚ) : ℚ × ℚ × ℚ × ℚ :=
  let c : ℚ × ℚ := (cell.1 / g.w, cell.2 / g.h)
  (c.1, c.2, 1 - c.1, 1)

end StaticShader

/-- Spec-described placement of one un-scaled quad vertex into the grid
tile of `inst`: translate the shared local vertex to the tile, with no
scaling. -/
def unscaledTilePos (g : Grid) (inst : Nat) (pos : ℚ × ℚ) : ℚ × ℚ :=
  ((pos.1 + 1) / g.w - 1 + ((inst % g.w : Nat) : ℚ) / g.w * 2,
   (pos.2 + 1) / g.h - 1 + ((inst / g.w : Nat) : ℚ) / g.h * 2)

/-- The tile origin of `inst`: the image of the quad's local origin
`(0, 0)` under the tile placement. -/
def tileOrigin (g : Grid) (inst : Nat) : ℚ × ℚ :=
  unscaledTilePos g inst (0, 0)

/-- C8: the render stage scales the quad geometry by the cell state before
offsetting.  With state 0 every local vertex — in particular each of the
six quad vertices — lands on the single point `tileOrigin`, a degenerate
zero-area quad; with state 1 every vertex lands exactly where the
un-scaled quad translated to the instance's tile puts it. -/
theorem dead_cell_degenerate (g : Grid) (inst : Nat) :
    (∀ pos : ℚ × ℚ, (SimShader.vertexMain g inst pos 0).1 =
      tileOrigin g inst) ∧
    vertices.map (fun v => (SimShader.vertexMain g inst v 0).1) =
      List.replicate 6 (tileOrigin g inst) ∧
    (∀ pos : ℚ × ℚ, (SimShader.vertexMain g inst pos 1).1 =
      unscaledTilePos g inst pos) ∧
    vertices.map (fun v => (SimShader.vertexMain g inst v 1).1) =
      vertices.map (unscaledTilePos g inst) := by
  have h0 : ∀ pos : ℚ × ℚ, (SimShader.vertexMain g inst pos 0).1 =
      tileOrigin g inst := by
    intro pos
    unfold SimShader.vertexMain tileOrigin unscaledTilePos
    simp
  have h1 : ∀ pos : ℚ × ℚ, (SimShader.vertexMain g inst pos 1).1 =
      unscaledTilePos g inst pos := by
    intro pos
    unfold SimShader.vertexMain unscaledTilePos
    simp
  refine ⟨h0, ?_, h1, ?_⟩
  · unfold vertices
    simp only [List.map_cons, List.map_nil, h0]
    rfl
  · unfold vertices
    simp only [List.map_cons, List.map_nil, h0, h1]

/-- C10: for equal grid dimensions the non-simulated variant (`run.js`) is
the simulated variant's render stage specialized to every cell alive: its
vertex output (position and cell) equals `part_000`'s with
`curr_state = 1`, and the two fragment shaders compute the identical color
`(x/W, y/H, 1 - x/W, 1)`. -/
theorem static_variant_refines (g : Grid) (inst : Nat)
    (pos cell : ℚ × ℚ) :
    StaticShader.vertexMain g inst pos =
      SimShader.vertexMain g inst pos 1 ∧
    StaticShader.fragmentMain g cell = SimShader.fragmentMain g cell ∧
    SimShader.fragmentMain g cell =
      (cell.1 / g.w, cell.2 / g.h, 1 - cell.1 / g.w, 1) := by
  refine ⟨?_, rfl, rfl⟩
  unfold StaticShader.vertexMain SimShader.vertexMain
  simp

/-- Source (lines 87-91):
`for (let i = 0; i < cellStateArray.length; ++i) cellStateArray[i] = Math.random() > 0.6 ? 1 : 0;`
with `cellStateArray.length = GRID_SIZE * GRID_SIZE`.  `draws i` models the
result of the i-th `Math.random()` call. -/
def cellStateArray (draws : Nat → ℚ) : List Nat :=
  (List.range (64 * 64)).map fun i => if draws i > 0.6 then 1 else 0

/-- The initial contents of the two storage buffers:
`device.queue.writeBuffer(cellStateStorage[0], 0, cellStateArray)` uploads
the seeded array into buffer 0 ("Cell State A"); buffer 1 ("Cell State B")
receives no seed data — `createBuffer` yields a zero-filled buffer and
nothing writes to it before the first tick. -/
def initStore (draws : Nat → ℚ) : Nat → List Nat
  | 0 => cellStateArray draws
  | _ + 1 => List.replicate (64 * 64) 0

/-- The startup state: `let step = 0;` with only buffer A seeded.
`setInterval(render, UPDATE_INTERVAL)` is the last statement of the file,
so initialization runs exactly once, before the first tick. -/
def initialFrame (draws : Nat → ℚ) : FrameState := ⟨0, initStore draws⟩


/-- C9: before the first tick the step counter is 0 and only buffer A was
seeded: at every index the cell is 1 exactly when its independent draw
exceeds 0.6 (so alive with probability 0.4 for uniform draws) and 0
otherwise, while buffer B holds only zeros. -/
theorem initialization_correct (draws : Nat → ℚ) (i : Nat)
    (hi : i < 64 * 64) :
    (initialFrame draws).step = 0 ∧
    initStore draws 0 = cellStateArray draws ∧
    (initStore draws 0).getD i 0 = (if draws i > 0.6 then 1 else 0) ∧
    ((initStore draws 0).getD i 0 = 1 ↔ draws i > 0.6) ∧
    (initStore draws 1).getD i 0 = 0 := by
  have hA : initStore draws 0 = cellStateArray draws := by rw [initStore]
  have hB : initStore draws 1 = List.replicate (64 * 64) 0 := by
    rw [initStore]
  have hval : (initStore draws 0).getD i 0 =
      (if draws i > 0.6 then 1 else 0) := by
    rw [hA]
    unfold cellStateArray
    exact getD_map_range _ _ _ hi
  refine ⟨rfl, hA, hval, ?_, ?_⟩
  · rw [hval]
    by_cases hc : draws i > 0.6 <;> simp [hc]
  · have hlen : i < (List.replicate (64 * 64) (0 : Nat)).length := by
      rw [List.length_replicate]; exact hi
    rw [hB, List.getD_eq_getElem _ _ hlen]
    exact List.getElem_replicate _ hlen

/-- Witness for C9 at `draws = fun _ => 0`, `i = 0`. -/
theorem initialization_correct_witness :
    ((0 : Nat) < 64 * 64) ∧
    ((initialFrame fun _ => 0).step = 0 ∧
    initStore (fun _ => 0) 0 = cellStateArray (fun _ => 0) ∧
    (initStore (fun _ => 0) 0).getD 0 0 =
      (if (0 : ℚ) > 0.6 then 1 else 0) ∧
    ((initStore (fun _ => 0) 0).getD 0 0 = 1 ↔ (0 : ℚ) > 0.6) ∧
    (initStore (fun _ => 0) 1).getD 0 0 = 0) :=
  ⟨by decide, initialization_correct (fun _ => 0) 0 (by decide)⟩

end WebGPULife
